import Mathlib

/-!
Verification development for the ReleaseDrop library reconciliation engine
(`backend/app/services/plex_service.py` and
`backend/app/services/jellyfin_service.py`).

The Python services compute string similarity with
`difflib.SequenceMatcher(None, a.lower(), b.lower()).ratio()`, match a target
album against the albums fetched from a media server, and partition the
canonical (Spotify) track list into available and missing tracks.  Everything
below is a shallow embedding of that code: strings are Lean `String`s,
floats are modelled as `ℚ` (every ratio produced here is a small rational
`2*m/t`, far from any floating-point rounding boundary relative to the
thresholds 0.80, 0.85, 0.90), and each HTTP fetch is a value of `Fetch α`
(`ok` payload or `err` for a raised transport error, which the Python code
catches inside each helper).
-/

set_option maxRecDepth 100000

namespace ReleaseDrop

/-! ### difflib.SequenceMatcher model

`SequenceMatcher` with `isjunk = None` and sequences shorter than 200
characters (the autojunk heuristic only activates at length ≥ 200, far above
any album or track title) computes, via `find_longest_match` /
`get_matching_blocks`, a total number of matched characters `m` and returns
`ratio() = 2*m / (len(a) + len(b))` (and `1.0` when both are empty).

`find_longest_match` scans positions `i` of `a` in increasing order and, for
each `i`, the positions `j` with `b[j] == a[i]` in increasing order, keeping
the length of the common run ending at `(i, j)` and recording a new best only
on a strict improvement; with no junk the trailing extension loops are no-ops.
Hence the block it returns is determined by: let `M` be the maximum run
length over all `(i, j)`; the block is the one ending at the lexicographically
first `(i, j)` whose run length is `M` (and `(0, 0, 0)` if `M = 0`).
`get_matching_blocks` applies this recursively to the pieces left of and
right of the found block; `ratio` only needs the sum of the block sizes. -/

/-- Length of the longest common run of `a` and `b` ending exactly at
positions `i` of `a` and `j` of `b` (`0` if `a[i] ≠ b[j]` or out of range). -/
def runEnd (a b : List Char) : Nat → Nat → Nat
  | 0, j =>
    if h : 0 < a.length ∧ j < b.length then
      if a.get ⟨0, h.1⟩ = b.get ⟨j, h.2⟩ then 1 else 0
    else 0
  | i + 1, 0 =>
    if h : i + 1 < a.length ∧ 0 < b.length then
      if a.get ⟨i + 1, h.1⟩ = b.get ⟨0, h.2⟩ then 1 else 0
    else 0
  | i + 1, j + 1 =>
    if h : i + 1 < a.length ∧ j + 1 < b.length then
      if a.get ⟨i + 1, h.1⟩ = b.get ⟨j + 1, h.2⟩ then runEnd a b i j + 1 else 0
    else 0

/-- All index pairs `(i, j)` with `i < la`, `j < lb`, in the lexicographic
order in which `find_longest_match` visits candidate run ends. -/
def indexPairs (la lb : Nat) : List (Nat × Nat) :=
  (List.range la).flatMap (fun i => (List.range lb).map (fun j => (i, j)))

/-- Maximum of a list of naturals (`0` for the empty list). -/
def natMaxList : List Nat → Nat
  | [] => 0
  | x :: xs => max x (natMaxList xs)

/-- The size of the longest matching block of `a` and `b`. -/
def bestSize (a b : List Char) : Nat :=
  natMaxList ((indexPairs a.length b.length).map (fun p => runEnd a b p.1 p.2))

/-- `find_longest_match` over whole `a`, `b`: start positions and size of the
longest matching block, ties resolved exactly as difflib does (first strict
improvement in the scan order). -/
def findLongestMatch (a b : List Char) : Nat × Nat × Nat :=
  if bestSize a b = 0 then (0, 0, 0)
  else
    match (indexPairs a.length b.length).find?
        (fun p => runEnd a b p.1 p.2 == bestSize a b) with
    | none => (0, 0, 0)
    | some (i, j) => (i + 1 - bestSize a b, j + 1 - bestSize a b, bestSize a b)

/-- Total matched size of `get_matching_blocks`, fuel-indexed: the recursion
descends into the parts strictly left and strictly right of the longest
block, so a fuel of `a.length + 1` always suffices. -/
def matchingTotalAux : Nat → List Char → List Char → Nat
  | 0, _, _ => 0
  | fuel + 1, a, b =>
    if (findLongestMatch a b).2.2 = 0 then 0
    else
      (findLongestMatch a b).2.2
        + matchingTotalAux fuel (a.take (findLongestMatch a b).1)
            (b.take (findLongestMatch a b).2.1)
        + matchingTotalAux fuel
            (a.drop ((findLongestMatch a b).1 + (findLongestMatch a b).2.2))
            (b.drop ((findLongestMatch a b).2.1 + (findLongestMatch a b).2.2))

/-- Sum of the matching block sizes of `SequenceMatcher(None, a, b)`. -/
def matchingTotal (a b : List Char) : Nat :=
  matchingTotalAux (a.length + 1) a b

/-- `SequenceMatcher.ratio()`: `2*m/T` for `T = len(a)+len(b)`, `1.0` when
`T = 0` (difflib `_calculate_ratio`). -/
def ratioQ (a b : List Char) : ℚ :=
  if a.length + b.length = 0 then 1
  else mkRat (2 * (matchingTotal a b : Int)) (a.length + b.length)

/-- Python `str.lower()` restricted to the basic latin range (`Char.toLower`),
the only case folding exercised by the fixtures and theorems below. -/
def lowerStr (s : String) : String :=
  String.mk (s.data.map Char.toLower)

/-- `PlexService._similarity_ratio` / `JellyfinService._similarity_ratio`
(the two method bodies are identical):
`SequenceMatcher(None, str1.lower(), str2.lower()).ratio()`. -/
def similarityRatio (s1 s2 : String) : ℚ :=
  ratioQ (lowerStr s1).data (lowerStr s2).data

/-! ### Provider environments

Each HTTP request the services issue is modelled as a `Fetch` value held in an
environment record: `ok` is a successful 2xx response already decoded to the
fields the Python code reads, `err` is any raised transport error (the Python
helpers catch every exception at their own boundary). -/

/-- Outcome of one provider HTTP call. -/
inductive Fetch (α : Type) where
  | ok : α → Fetch α
  | err : Fetch α
deriving DecidableEq

/-- The `match_type` strings `"exact" | "similar" | "none"` of the result
dictionaries. -/
inductive MatchType where
  | exact
  | similar
  | none
deriving DecidableEq

/-- The dictionary returned by `check_album_in_library` (both services):
`plex_album_id`/`jellyfin_album_id` is modelled as `album_id`, and the extra
`plex_album_name`/`jellyfin_album_name` key of the success path as
`album_name` (absent, hence `none`, on the not-found paths). -/
structure RecResult where
  in_library : Bool
  match_type : MatchType
  match_confidence : ℚ
  available_tracks : List String
  missing_tracks : List String
  album_id : Option String
  album_name : Option String
deriving DecidableEq

/-- The not-found dictionary both services build: `in_library: False,
match_type: "none", available_tracks: [], missing_tracks: all canonical track
names` (Plex lines 220-227 and 358-365, Jellyfin lines 176-183 and 213-220). -/
def notFoundResult (spotifyTracks : List String) (confidence : ℚ) : RecResult :=
  { in_library := false
    match_type := MatchType.none
    match_confidence := confidence
    available_tracks := []
    missing_tracks := spotifyTracks
    album_id := Option.none
    album_name := Option.none }

/-- One iteration of the "similarity fallback" loops in the source: replace
the best `(match, ratio)` seen so far only on a strict improvement
(`ratio > best_ratio`). -/
def bestStep {α : Type} (titleOf : α → String) (target : String)
    (acc : Option α × ℚ) (it : α) : Option α × ℚ :=
  if similarityRatio (titleOf it) target > acc.2
  then (some it, similarityRatio (titleOf it) target)
  else acc

/-- Fold shared by every "similarity fallback" loop in the source, starting
from `best_match = None`, `best_ratio = 0.0`. -/
def bestSimilar {α : Type} (titleOf : α → String) (items : List α)
    (target : String) : Option α × ℚ :=
  items.foldl (bestStep titleOf target) (Option.none, 0)

/-! ### Track reconciliation (Plex lines 310-336, Jellyfin lines 227-249)

The two services contain the same loop verbatim: build the set of lower-cased
library track titles, then for each canonical (Spotify) track append its name
to `available_tracks` on a case-folded exact hit or a similarity hit
`>= 0.9`, and to `missing_tracks` otherwise.  The Python set is modelled as
the deduplicated list of lower-cased titles; the classification of a track
only uses membership and an existential scan, so it does not depend on the
set's iteration order. -/

/-- One canonical track's classification: case-folded membership, else a scan
of the library titles for a similarity hit `>= 0.9` (the scan stops at the
first hit in the source, which only affects work done, not the outcome). -/
def trackAvailable (libraryNames : List String) (trackName : String) : Bool :=
  libraryNames.contains (lowerStr trackName)
    || libraryNames.any
        (fun libName => decide (similarityRatio trackName libName ≥ mkRat 9 10))

/-- The classification loop: returns `(available_tracks, missing_tracks)` in
canonical order, one entry appended per canonical track. -/
def reconcileTracks (libraryNames : List String) :
    List String → List String × List String
  | [] => ([], [])
  | trackName :: rest =>
    let res := reconcileTracks libraryNames rest
    if trackAvailable libraryNames trackName then (trackName :: res.1, res.2)
    else (res.1, trackName :: res.2)

/-- The set of lower-cased library track titles both services build before the
classification loop. -/
def lowerNameSet (libraryTitles : List String) : List String :=
  (libraryTitles.map lowerStr).dedup

/-! ### PlexService -/

/-- One entry of `MediaContainer.Directory` from `/library/sections`. -/
structure PlexSection where
  type : String
  key : String
  title : String
deriving DecidableEq

/-- One album dictionary from a type-9 section query: `key` is used to fetch
its tracks, `ratingKey` is reported as `plex_album_id`, `parentTitle` is the
album's artist. -/
structure PlexAlbum where
  key : String
  ratingKey : String
  title : String
  parentTitle : String
deriving DecidableEq

/-- The Plex server as seen through the four requests `PlexService` makes.
`configured` is `base_url and token both non-empty`; each field holds the
decoded response (or `err`) of the corresponding endpoint. -/
structure PlexEnv where
  configured : Bool
  sections : Fetch (List PlexSection)
  artists : String → Fetch (List String)
  albums : String → Fetch (List PlexAlbum)
  tracks : String → Fetch (List String)

/-- `PlexService.get_music_libraries`: unconfigured or erroring requests give
`[]`; otherwise the sections of type `"artist"`. -/
def getMusicLibraries (env : PlexEnv) : List PlexSection :=
  if ¬ env.configured then []
  else
    match env.sections with
    | Fetch.err => []
    | Fetch.ok secs => secs.filter (fun s => s.type == "artist")

/-- `PlexService.search_artist_in_library`: exact (case-folded) title match
first, then the similarity fold with threshold `0.85`; errors give `None`. -/
def searchArtistInLibrary (env : PlexEnv) (libraryKey artistName : String) :
    Option String :=
  if ¬ env.configured then Option.none
  else
    match env.artists libraryKey with
    | Fetch.err => Option.none
    | Fetch.ok artistTitles =>
      match artistTitles.find? (fun t => lowerStr t == lowerStr artistName) with
      | some a => some a
      | Option.none =>
        let br := bestSimilar id artistTitles artistName
        if br.2 ≥ mkRat 17 20 then br.1 else Option.none

/-- `PlexService.get_artist_albums`: all albums of the section filtered to
those whose `parentTitle` equals the artist case-insensitively or has
similarity `>= 0.85`; errors give `[]`. -/
def getArtistAlbums (env : PlexEnv) (libraryKey artistName : String) :
    List PlexAlbum :=
  if ¬ env.configured then []
  else
    match env.albums libraryKey with
    | Fetch.err => []
    | Fetch.ok allAlbums =>
      allAlbums.filter
        (fun al =>
          lowerStr al.parentTitle == lowerStr artistName
            || decide (similarityRatio al.parentTitle artistName ≥ mkRat 17 20))

/-- `PlexService.get_album_tracks`: the track titles of one album, `[]` when
unconfigured or on error. -/
def getAlbumTracks (env : PlexEnv) (albumKey : String) : List String :=
  if ¬ env.configured then []
  else
    match env.tracks albumKey with
    | Fetch.err => []
    | Fetch.ok trackTitles => trackTitles

/-- Duplicate-title resolution (Plex lines 267-288): fetch each candidate's
tracks and keep the album whose track count is closest to the Spotify count,
starting from `best_track_diff = inf` and replacing only on a strict
improvement, so the first-encountered minimum wins. -/
def albumDiff (getTracks : String → List String) (spotifyTrackCount : Nat)
    (al : PlexAlbum) : Nat :=
  (((getTracks al.key).length : Int) - (spotifyTrackCount : Int)).natAbs

/-- One iteration of the duplicate-resolution loop: `abs(album_track_count -
spotify_track_count)` against the best so far (`None` plays `inf`), replacing
only on a strictly smaller difference. -/
def pickStep (getTracks : String → List String) (spotifyTrackCount : Nat)
    (best : Option (PlexAlbum × Nat)) (al : PlexAlbum) :
    Option (PlexAlbum × Nat) :=
  match best with
  | Option.none => some (al, albumDiff getTracks spotifyTrackCount al)
  | some (b, bestDiff) =>
    if albumDiff getTracks spotifyTrackCount al < bestDiff
    then some (al, albumDiff getTracks spotifyTrackCount al)
    else some (b, bestDiff)

def pickBestByTrackCount (getTracks : String → List String)
    (exactMatches : List PlexAlbum) (spotifyTrackCount : Nat) :
    Option PlexAlbum :=
  (exactMatches.foldl (pickStep getTracks spotifyTrackCount) Option.none).map
    Prod.fst

/-- The album-matching block of `PlexService.check_album_in_library` (lines
255-304): collect the case-insensitive exact title matches; one exact match
wins outright, several are resolved by track count, and only when there is no
exact match runs the similarity fold with threshold `0.80`.  Returns
`(matched_album, is_exact_match, best_ratio)`; when `is_exact_match` is true
the Python `best_ratio` variable is never assigned and the caller uses `1.0`
(line 344). -/
def plexMatchAlbum (getTracks : String → List String) (albums : List PlexAlbum)
    (albumName : String) (spotifyTrackCount : Nat) :
    Option PlexAlbum × Bool × ℚ :=
  let exactMatches := albums.filter (fun al => lowerStr al.title == lowerStr albumName)
  match exactMatches with
  | [] =>
    let br := bestSimilar (fun al : PlexAlbum => al.title) albums albumName
    if br.2 ≥ mkRat 4 5 then (br.1, false, br.2) else (Option.none, false, br.2)
  | [a] => (some a, true, 0)
  | _ :: _ :: _ =>
    (pickBestByTrackCount getTracks exactMatches spotifyTrackCount, true, 0)

/-- The per-library loop of `PlexService.check_album_in_library` (lines
232-354): skip a library when the artist is not found or it has no albums for
the artist or no album matches; on the first match reconcile tracks and
return immediately. -/
def plexCheckLoop (env : PlexEnv) (albumName artistName : String)
    (spotifyTracks : List String) : List PlexSection → RecResult
  | [] => notFoundResult spotifyTracks 0
  | library :: rest =>
    match searchArtistInLibrary env library.key artistName with
    | Option.none => plexCheckLoop env albumName artistName spotifyTracks rest
    | some _ =>
      let albums := getArtistAlbums env library.key artistName
      if albums.isEmpty then plexCheckLoop env albumName artistName spotifyTracks rest
      else
        let m := plexMatchAlbum (getAlbumTracks env) albums albumName
          spotifyTracks.length
        match m.1 with
        | Option.none => plexCheckLoop env albumName artistName spotifyTracks rest
        | some matched =>
          let plexTrackNames := lowerNameSet (getAlbumTracks env matched.key)
          let res := reconcileTracks plexTrackNames spotifyTracks
          { in_library := true
            match_type := if m.2.1 then MatchType.exact else MatchType.similar
            match_confidence := if m.2.1 then 1 else m.2.2
            available_tracks := res.1
            missing_tracks := res.2
            album_id := some matched.ratingKey
            album_name := some matched.title }

/-- `PlexService.check_album_in_library` (lines 189-365): the empty-library
early return, then the per-library loop, then the final not-found return with
confidence `0.0`. -/
def plexCheckAlbumInLibrary (env : PlexEnv) (albumName artistName : String)
    (spotifyTracks : List String) : RecResult :=
  let musicLibraries := getMusicLibraries env
  if musicLibraries.isEmpty then notFoundResult spotifyTracks 0
  else plexCheckLoop env albumName artistName spotifyTracks musicLibraries

/-! ### JellyfinService -/

/-- One album item from Jellyfin (`Id`, `Name`). -/
structure JfAlbum where
  id : String
  name : String
deriving DecidableEq

/-- The Jellyfin server as seen through the requests `JellyfinService` makes:
the user list, the `MusicArtist` search for the one artist name the call
uses, the album items of an artist id, and the track items of an album id. -/
structure JfEnv where
  configured : Bool
  users : Fetch (List String)
  artistSearch : Fetch (List String)
  albumsOf : String → Fetch (List JfAlbum)
  tracksOf : String → Fetch (List String)

/-- `JellyfinService.get_artist_items`: first user id, first artist id of the
search, that artist's album items; `[]` when unconfigured, on any error, or
when any of the intermediate lists is empty. -/
def jfGetArtistItems (env : JfEnv) : List JfAlbum :=
  if ¬ env.configured then []
  else
    match env.users with
    | Fetch.err => []
    | Fetch.ok [] => []
    | Fetch.ok (_ :: _) =>
      match env.artistSearch with
      | Fetch.err => []
      | Fetch.ok [] => []
      | Fetch.ok (artistId :: _) =>
        match env.albumsOf artistId with
        | Fetch.err => []
        | Fetch.ok items => items

/-- `JellyfinService.get_album_tracks`: the track titles of one album id. -/
def jfGetAlbumTracks (env : JfEnv) (albumId : String) : List String :=
  if ¬ env.configured then []
  else
    match env.users with
    | Fetch.err => []
    | Fetch.ok [] => []
    | Fetch.ok (_ :: _) =>
      match env.tracksOf albumId with
      | Fetch.err => []
      | Fetch.ok trackTitles => trackTitles

/-- `JellyfinService.check_album_in_library` (lines 147-259): empty album list
gives the not-found result with confidence `0.0`; otherwise the first
case-insensitive exact title match, else the similarity fold with threshold
`0.85`; a miss returns the not-found result carrying `best_ratio`. -/
def jellyfinCheckAlbumInLibrary (env : JfEnv) (albumName _artistName : String)
    (spotifyTracks : List String) : RecResult :=
  let jfAlbums := jfGetArtistItems env
  if jfAlbums.isEmpty then notFoundResult spotifyTracks 0
  else
    let exactMatch := jfAlbums.find? (fun al => lowerStr al.name == lowerStr albumName)
    let br :=
      match exactMatch with
      | some _ => ((Option.none : Option JfAlbum), (0 : ℚ))
      | Option.none => bestSimilar (fun al : JfAlbum => al.name) jfAlbums albumName
    let matchedAlbum :=
      match exactMatch with
      | some e => some e
      | Option.none => if br.2 ≥ mkRat 17 20 then br.1 else Option.none
    match matchedAlbum with
    | Option.none => notFoundResult spotifyTracks br.2
    | some matched =>
      let jfTrackNames := lowerNameSet (jfGetAlbumTracks env matched.id)
      let res := reconcileTracks jfTrackNames spotifyTracks
      { in_library := true
        match_type := if exactMatch.isSome then MatchType.exact else MatchType.similar
        match_confidence := if exactMatch.isSome then 1 else br.2
        available_tracks := res.1
        missing_tracks := res.2
        album_id := some matched.id
        album_name := some matched.name }

/-! ### Proof infrastructure -/

/-- Structural twin of the fold inside `pickBestByTrackCount`: scan the
remaining candidates keeping the current best `(b, bd)` and replacing it only
on a strictly smaller difference. -/
def pickLoop (diff : PlexAlbum → Nat) (b : PlexAlbum) (bd : Nat) :
    List PlexAlbum → PlexAlbum × Nat
  | [] => (b, bd)
  | a :: rest =>
    if diff a < bd then pickLoop diff a (diff a) rest else pickLoop diff b bd rest

/-- The structural invariants of a `ReconciliationResult` for a canonical
track list `ts` (spec section 3): available and missing names partition the
canonical names; a `none` match reports nothing in the library and every
canonical track missing; an `exact` match has confidence `1.0`. -/
def ResultOk (ts : List String) (r : RecResult) : Prop :=
  (∀ x, (x ∈ r.available_tracks ∨ x ∈ r.missing_tracks) ↔ x ∈ ts)
    ∧ (∀ x, ¬(x ∈ r.available_tracks ∧ x ∈ r.missing_tracks))
    ∧ (r.match_type = MatchType.none →
        r.in_library = false ∧ r.available_tracks = [] ∧ r.missing_tracks = ts)
    ∧ (r.match_type = MatchType.exact → r.match_confidence = 1)

/-! ### Concrete fixtures -/

/-- A Plex server with one music library, one artist (`"Artist"`), the given
albums for it, and the given per-album track responses. -/
def mkPlexEnv (albums : List PlexAlbum) (tracks : String → Fetch (List String)) :
    PlexEnv :=
  { configured := true
    sections := Fetch.ok [⟨"artist", "s1", "Music"⟩]
    artists := fun _ => Fetch.ok ["Artist"]
    albums := fun _ => Fetch.ok albums
    tracks := tracks }

/-- A Plex service with neither base url nor token configured. -/
def plexUnconfEnv : PlexEnv :=
  { configured := false
    sections := Fetch.err
    artists := fun _ => Fetch.err
    albums := fun _ => Fetch.err
    tracks := fun _ => Fetch.err }

/-- One candidate album whose title is `0.80`-similar to the target `"abcd"`. -/
def plexSimilarEnv : PlexEnv :=
  mkPlexEnv [⟨"k1", "rk1", "abcdxy", "Artist"⟩] (fun _ => Fetch.ok [])

/-- One candidate album whose title is only `0.25`-similar to `"abcd"`. -/
def plexFarEnv : PlexEnv :=
  mkPlexEnv [⟨"k1", "rk1", "axyz", "Artist"⟩] (fun _ => Fetch.ok [])

/-- Two albums both titled `"Dup"`, with 2 and 1 fetched tracks. -/
def plexDupEnv : PlexEnv :=
  mkPlexEnv [⟨"k1", "rk1", "Dup", "Artist"⟩, ⟨"k2", "rk2", "Dup", "Artist"⟩]
    (fun k => if k = "k1" then Fetch.ok ["A", "B"] else Fetch.ok ["A"])

/-- An exact-titled album whose track fetch raises a transport error. -/
def plexTrackErrEnv : PlexEnv :=
  mkPlexEnv [⟨"k1", "rk1", "Album", "Artist"⟩] (fun _ => Fetch.err)

/-- An exact-titled album holding one track `"Intro"`. -/
def plexIntroEnv : PlexEnv :=
  mkPlexEnv [⟨"k1", "rk1", "Album", "Artist"⟩] (fun _ => Fetch.ok ["Intro"])

/-- A Jellyfin server with one user, one artist and the given albums. -/
def mkJfEnv (items : List JfAlbum) (tracks : String → Fetch (List String)) :
    JfEnv :=
  { configured := true
    users := Fetch.ok ["u1"]
    artistSearch := Fetch.ok ["ar1"]
    albumsOf := fun _ => Fetch.ok items
    tracksOf := tracks }

/-- One Jellyfin album whose name is only `0.25`-similar to `"abcd"`. -/
def jfMissEnv : JfEnv :=
  mkJfEnv [⟨"j1", "axyz"⟩] (fun _ => Fetch.ok [])

/-- One Jellyfin album exactly titled `"Thriller"` with one track. -/
def jfThrillerEnv : JfEnv :=
  mkJfEnv [⟨"j1", "Thriller"⟩] (fun _ => Fetch.ok ["Billie Jean"])

/-- The spec section 8 scenario fixture: one library, the artist, one
exact-titled album with three tracks. -/
def plexThrillerEnv : PlexEnv :=
  { configured := true
    sections := Fetch.ok [⟨"artist", "s1", "Music"⟩]
    artists := fun _ => Fetch.ok ["Michael Jackson"]
    albums := fun _ => Fetch.ok [⟨"alk1", "rk1", "Thriller", "Michael Jackson"⟩]
    tracks := fun k => if k = "alk1" then Fetch.ok ["Wanna Be Startin Somethin", "Billie Jean", "Beat It"] else Fetch.err }

/-- A Plex server whose artist query raises for every library. -/
def plexArtistErrEnv : PlexEnv :=
  { configured := true
    sections := Fetch.ok [⟨"artist", "s1", "Music"⟩]
    artists := fun _ => Fetch.err
    albums := fun _ => Fetch.ok []
    tracks := fun _ => Fetch.ok [] }

end ReleaseDrop

namespace ReleaseDrop

/-! ### Concrete evaluations

These anonymous checks pin the embedding to the reference behavior of
`difflib` and of the services on small fixtures. -/

example : similarityRatio "abcd" "abcdxy" = mkRat 4 5 := by decide
example : similarityRatio "ab" "bacb" = mkRat 2 3 := by decide
example : similarityRatio "bacb" "ab" = mkRat 1 3 := by decide
example : similarityRatio "AbCd" "aBcD" = 1 := by decide
example : similarityRatio "Thriller" "Thriler" = mkRat 14 15 := by decide
example : similarityRatio "Beat It" "Billie Jean" = mkRat 1 3 := by decide

example :
    reconcileTracks (lowerNameSet ["Thriler", "Beat It"]) ["Thriller", "Bad"] =
    (["Thriller"], ["Bad"]) := by decide

example :
    plexCheckAlbumInLibrary plexThrillerEnv "Thriller" "Michael Jackson"
      ["Wanna Be Startin Somethin", "Billie Jean", "Thriller"] =
    { in_library := true
      match_type := MatchType.exact
      match_confidence := 1
      available_tracks := ["Wanna Be Startin Somethin", "Billie Jean"]
      missing_tracks := ["Thriller"]
      album_id := some "rk1"
      album_name := some "Thriller" } := by decide

/-! ### Lemmas: case folding -/

theorem char_toNat_ofNat {n : Nat} (h : n.isValidChar) :
    (Char.ofNat n).toNat = n := by
  simp [Char.ofNat, dif_pos h, Char.ofNatAux, Char.toNat, UInt32.toNat,
    BitVec.toNat_ofNatLt]

theorem charToLower_idem (c : Char) : c.toLower.toLower = c.toLower := by
  unfold Char.toLower
  by_cases h : c.toNat ≥ 65 ∧ c.toNat ≤ 90
  · rw [if_pos h]
    have hv : (c.toNat + 32).isValidChar := Or.inl (by omega)
    rw [char_toNat_ofNat hv, if_neg (by omega)]
  · rw [if_neg h, if_neg h]

theorem lowerStr_idem (s : String) : lowerStr (lowerStr s) = lowerStr s := by
  unfold lowerStr
  congr 1
  rw [List.map_map]
  exact List.map_congr_left (fun c _ => charToLower_idem c)

/-! ### Lemmas: the matcher core -/

theorem runEnd_le_fst (a b : List Char) (i : Nat) :
    ∀ j, runEnd a b i j ≤ i + 1 := by
  induction i with
  | zero =>
    intro j
    simp only [runEnd]
    split
    · split <;> omega
    · omega
  | succ i ih =>
    intro j
    cases j with
    | zero =>
      simp only [runEnd]
      split
      · split <;> omega
      · omega
    | succ j =>
      simp only [runEnd]
      split
      · split
        · exact Nat.succ_le_succ (Nat.le_trans (ih j) (Nat.le_refl _))
        · omega
      · omega

theorem runEnd_le_snd (a b : List Char) (i : Nat) :
    ∀ j, runEnd a b i j ≤ j + 1 := by
  induction i with
  | zero =>
    intro j
    simp only [runEnd]
    split
    · split <;> omega
    · omega
  | succ i ih =>
    intro j
    cases j with
    | zero =>
      simp only [runEnd]
      split
      · split <;> omega
      · omega
    | succ j =>
      simp only [runEnd]
      split
      · split
        · exact Nat.succ_le_succ (ih j)
        · omega
      · omega

theorem le_natMaxList {l : List Nat} {x : Nat} (h : x ∈ l) : x ≤ natMaxList l := by
  induction l with
  | nil => cases h
  | cons y ys ih =>
    simp only [natMaxList]
    rcases List.mem_cons.mp h with h1 | h2
    · subst h1
      exact Nat.le_max_left _ _
    · exact Nat.le_trans (ih h2) (Nat.le_max_right _ _)

theorem natMaxList_mem {l : List Nat} (h : natMaxList l ≠ 0) :
    natMaxList l ∈ l := by
  induction l with
  | nil => simp [natMaxList] at h
  | cons y ys ih =>
    simp only [natMaxList] at h ⊢
    rcases Nat.le_total y (natMaxList ys) with h1 | h1
    · rw [Nat.max_eq_right h1] at h ⊢
      exact List.mem_cons_of_mem _ (ih h)
    · rw [Nat.max_eq_left h1] at h ⊢
      exact List.mem_cons_self _ _

theorem mem_indexPairs {la lb i j : Nat} :
    (i, j) ∈ indexPairs la lb ↔ i < la ∧ j < lb := by
  simp [indexPairs, List.mem_flatMap, List.mem_map, List.mem_range]

end ReleaseDrop

namespace ReleaseDrop

theorem natMaxList_le {l : List Nat} {n : Nat} (h : ∀ x ∈ l, x ≤ n) :
    natMaxList l ≤ n := by
  induction l with
  | nil => simp [natMaxList]
  | cons y ys ih =>
    simp only [natMaxList]
    exact Nat.max_le.mpr
      ⟨h y (List.mem_cons_self _ _), ih (fun x hx => h x (List.mem_cons_of_mem _ hx))⟩

theorem bestSize_le_fst (a b : List Char) : bestSize a b ≤ a.length := by
  unfold bestSize
  apply natMaxList_le
  intro x hx
  obtain ⟨p, hp, hpx⟩ := List.mem_map.mp hx
  have := (mem_indexPairs.mp hp).1
  calc x = runEnd a b p.1 p.2 := hpx.symm
    _ ≤ p.1 + 1 := runEnd_le_fst a b p.1 p.2
    _ ≤ a.length := this

theorem bestSize_le_snd (a b : List Char) : bestSize a b ≤ b.length := by
  unfold bestSize
  apply natMaxList_le
  intro x hx
  obtain ⟨p, hp, hpx⟩ := List.mem_map.mp hx
  have := (mem_indexPairs.mp hp).2
  calc x = runEnd a b p.1 p.2 := hpx.symm
    _ ≤ p.2 + 1 := runEnd_le_snd a b p.1 p.2
    _ ≤ b.length := this

theorem flm_bounds (a b : List Char) (h : (findLongestMatch a b).2.2 ≠ 0) :
    (findLongestMatch a b).1 + (findLongestMatch a b).2.2 ≤ a.length ∧
    (findLongestMatch a b).2.1 + (findLongestMatch a b).2.2 ≤ b.length := by
  unfold findLongestMatch at h ⊢
  by_cases hM : bestSize a b = 0
  · rw [if_pos hM] at h
    simp at h
  · rw [if_neg hM] at h ⊢
    rcases hfind : (indexPairs a.length b.length).find?
        (fun p => runEnd a b p.1 p.2 == bestSize a b) with _ | ⟨i, j⟩
    · rw [hfind] at h
      simp at h
    · rw [hfind] at h ⊢
      have hmem := List.mem_of_find?_eq_some hfind
      have hpred := List.find?_some hfind
      have hrun : runEnd a b i j = bestSize a b := by
        simpa using hpred
      have hij := mem_indexPairs.mp hmem
      have h1 : bestSize a b ≤ i + 1 := hrun ▸ runEnd_le_fst a b i j
      have h2 : bestSize a b ≤ j + 1 := hrun ▸ runEnd_le_snd a b i j
      exact ⟨by simp only; omega, by simp only; omega⟩

theorem flm_k_eq (a b : List Char) (h : bestSize a b ≠ 0) :
    (findLongestMatch a b).2.2 = bestSize a b := by
  unfold findLongestMatch
  rw [if_neg h]
  rcases hfind : (indexPairs a.length b.length).find?
      (fun p => runEnd a b p.1 p.2 == bestSize a b) with _ | ⟨i, j⟩
  · exfalso
    have h2 : natMaxList ((indexPairs a.length b.length).map
        (fun p => runEnd a b p.1 p.2)) ≠ 0 := h
    have hmax := natMaxList_mem h2
    obtain ⟨p, hp, hpx⟩ := List.mem_map.mp hmax
    have := List.find?_eq_none.mp hfind p hp
    simp [bestSize] at hpx this
    exact this hpx
  · rw [hfind]

theorem matchingTotalAux_le (fuel : Nat) :
    ∀ a b, matchingTotalAux fuel a b ≤ a.length ∧
      matchingTotalAux fuel a b ≤ b.length := by
  induction fuel with
  | zero => intro a b; simp [matchingTotalAux]
  | succ fuel ih =>
    intro a b
    simp only [matchingTotalAux]
    by_cases hk : (findLongestMatch a b).2.2 = 0
    · simp [hk]
    · rw [if_neg hk]
      obtain ⟨hba, hbb⟩ := flm_bounds a b hk
      have hl := ih (a.take (findLongestMatch a b).1)
        (b.take (findLongestMatch a b).2.1)
      have hr := ih
        (a.drop ((findLongestMatch a b).1 + (findLongestMatch a b).2.2))
        (b.drop ((findLongestMatch a b).2.1 + (findLongestMatch a b).2.2))
      rw [List.length_take, List.length_take] at hl
      rw [List.length_drop, List.length_drop] at hr
      constructor
      · have h1 := hl.1
        have h2 := hr.1
        omega
      · have h1 := hl.2
        have h2 := hr.2
        omega

theorem le_matchingTotalAux (fuel : Nat) (a b : List Char) :
    (findLongestMatch a b).2.2 ≤ matchingTotalAux (fuel + 1) a b := by
  simp only [matchingTotalAux]
  by_cases hk : (findLongestMatch a b).2.2 = 0
  · simp [hk]
  · rw [if_neg hk]
    omega

theorem runEnd_diag (a : List Char) :
    ∀ i, i < a.length → runEnd a a i i = i + 1 := by
  intro i
  induction i with
  | zero =>
    intro h
    simp [runEnd, h]
  | succ i ih =>
    intro h
    have h2 : i < a.length := Nat.lt_of_succ_lt h
    simp [runEnd, h, ih h2]

theorem bestSize_self (a : List Char) : bestSize a a = a.length := by
  refine Nat.le_antisymm (bestSize_le_fst a a) ?_
  rcases h : a.length with _ | n
  · omega
  · have hmem : (n, n) ∈ indexPairs a.length a.length :=
      mem_indexPairs.mpr ⟨by omega, by omega⟩
    have hrun : runEnd a a n n = n + 1 := runEnd_diag a n (by omega)
    have : runEnd a a n n ≤ bestSize a a :=
      le_natMaxList (List.mem_map.mpr ⟨(n, n), hmem, rfl⟩)
    omega

theorem matchingTotal_self (a : List Char) : matchingTotal a a = a.length := by
  refine Nat.le_antisymm (matchingTotalAux_le _ a a).1 ?_
  by_cases h0 : a.length = 0
  · omega
  · have hb : bestSize a a ≠ 0 := by rw [bestSize_self]; exact h0
    have h1 := le_matchingTotalAux a.length a a
    rw [flm_k_eq a a hb, bestSize_self] at h1
    exact h1

end ReleaseDrop

namespace ReleaseDrop

/-! ### Lemmas: the similarity contract -/

theorem ratioQ_nonneg (a b : List Char) : 0 ≤ ratioQ a b := by
  unfold ratioQ
  split
  · exact zero_le_one
  · rw [Rat.mkRat_eq_divInt]
    exact Rat.divInt_nonneg (by positivity) (by positivity)

theorem ratioQ_le_one (a b : List Char) : ratioQ a b ≤ 1 := by
  unfold ratioQ
  split
  · exact le_refl 1
  · rename_i h
    have h1 : matchingTotal a b ≤ a.length := (matchingTotalAux_le _ a b).1
    have h2 : matchingTotal a b ≤ b.length := (matchingTotalAux_le _ a b).2
    rw [Rat.mkRat_eq_divInt, Rat.divInt_eq_div]
    rw [div_le_one (by exact_mod_cast Nat.pos_of_ne_zero h)]
    have : 2 * matchingTotal a b ≤ a.length + b.length := by omega
    exact_mod_cast this

theorem ratioQ_self (a : List Char) : ratioQ a a = 1 := by
  unfold ratioQ
  split
  · rfl
  · rename_i h
    rw [matchingTotal_self, Rat.mkRat_eq_divInt]
    have h2 : ((a.length + a.length : Nat) : Int) ≠ 0 := by exact_mod_cast h
    calc Rat.divInt (2 * (a.length : Int)) ((a.length + a.length : Nat) : Int)
        = Rat.divInt ((a.length + a.length : Nat) : Int)
            ((a.length + a.length : Nat) : Int) := by
          congr 1
          push_cast
          ring
      _ = 1 := Rat.divInt_self' h2

theorem similarityRatio_nonneg (s1 s2 : String) : 0 ≤ similarityRatio s1 s2 :=
  ratioQ_nonneg _ _

theorem similarityRatio_le_one (s1 s2 : String) : similarityRatio s1 s2 ≤ 1 :=
  ratioQ_le_one _ _

theorem similarityRatio_self (x : String) : similarityRatio x x = 1 :=
  ratioQ_self _

theorem similarityRatio_congr_lower {a a2 b b2 : String}
    (h1 : lowerStr a2 = lowerStr a) (h2 : lowerStr b2 = lowerStr b) :
    similarityRatio a2 b2 = similarityRatio a b := by
  unfold similarityRatio
  rw [h1, h2]

theorem similarityRatio_lowerStr_right (x t : String) :
    similarityRatio x (lowerStr t) = similarityRatio x t := by
  unfold similarityRatio
  rw [lowerStr_idem]

end ReleaseDrop

namespace ReleaseDrop

/-! ### Lemmas: track reconciliation -/

theorem trackAvailable_nil (x : String) : trackAvailable [] x = false := by
  simp [trackAvailable]

theorem mem_reconcile_fst (names : List String) :
    ∀ (ts : List String) (x : String),
      x ∈ (reconcileTracks names ts).1 ↔
        x ∈ ts ∧ trackAvailable names x = true := by
  intro ts
  induction ts with
  | nil => intro x; simp [reconcileTracks]
  | cons t rest ih =>
    intro x
    simp only [reconcileTracks]
    by_cases h : trackAvailable names t
    · simp only [if_pos h, List.mem_cons]
      constructor
      · rintro (rfl | hx)
        · exact ⟨Or.inl rfl, h⟩
        · exact ⟨Or.inr ((ih x).mp hx).1, ((ih x).mp hx).2⟩
      · rintro ⟨rfl | hx, hav⟩
        · exact Or.inl rfl
        · exact Or.inr ((ih x).mpr ⟨hx, hav⟩)
    · simp only [if_neg h, List.mem_cons]
      rw [ih x]
      constructor
      · rintro ⟨hx, hav⟩
        exact ⟨Or.inr hx, hav⟩
      · rintro ⟨rfl | hx, hav⟩
        · exact absurd hav h
        · exact ⟨hx, hav⟩

theorem mem_reconcile_snd (names : List String) :
    ∀ (ts : List String) (x : String),
      x ∈ (reconcileTracks names ts).2 ↔
        x ∈ ts ∧ trackAvailable names x = false := by
  intro ts
  induction ts with
  | nil => intro x; simp [reconcileTracks]
  | cons t rest ih =>
    intro x
    simp only [reconcileTracks]
    by_cases h : trackAvailable names t
    · simp only [if_pos h, List.mem_cons]
      rw [ih x]
      constructor
      · rintro ⟨hx, hav⟩
        exact ⟨Or.inr hx, hav⟩
      · rintro ⟨rfl | hx, hav⟩
        · rw [h] at hav; cases hav
        · exact ⟨hx, hav⟩
    · simp only [if_neg h, List.mem_cons]
      constructor
      · rintro (rfl | hx)
        · exact ⟨Or.inl rfl, Bool.eq_false_iff.mpr h⟩
        · exact ⟨Or.inr ((ih x).mp hx).1, ((ih x).mp hx).2⟩
      · rintro ⟨rfl | hx, hav⟩
        · exact Or.inl rfl
        · exact Or.inr ((ih x).mpr ⟨hx, hav⟩)

theorem count_reconcile (names : List String) :
    ∀ (ts : List String) (x : String),
      (reconcileTracks names ts).1.count x + (reconcileTracks names ts).2.count x
        = ts.count x := by
  intro ts
  induction ts with
  | nil => intro x; simp [reconcileTracks]
  | cons t rest ih =>
    intro x
    simp only [reconcileTracks]
    by_cases h : trackAvailable names t
    · simp only [if_pos h, List.count_cons]
      have := ih x
      omega
    · simp only [if_neg h, List.count_cons]
      have := ih x
      omega

theorem reconcile_nil_names :
    ∀ ts : List String, reconcileTracks [] ts = ([], ts) := by
  intro ts
  induction ts with
  | nil => rfl
  | cons t rest ih =>
    simp [reconcileTracks, ih, trackAvailable_nil]

/-! ### Lemmas: the best-similarity fold -/

theorem bestStep_snd_le {α : Type} (titleOf : α → String) (target : String)
    (acc : Option α × ℚ) (it : α) :
    acc.2 ≤ (bestStep titleOf target acc it).2 := by
  unfold bestStep
  split
  · rename_i h
    exact le_of_lt h
  · exact le_refl _

theorem foldl_bestStep_mono {α : Type} (titleOf : α → String) (target : String) :
    ∀ (l : List α) (acc : Option α × ℚ),
      acc.2 ≤ (l.foldl (bestStep titleOf target) acc).2 := by
  intro l
  induction l with
  | nil => intro acc; exact le_refl _
  | cons x xs ih =>
    intro acc
    exact le_trans (bestStep_snd_le titleOf target acc x)
      (ih (bestStep titleOf target acc x))

theorem le_bestSimilar {α : Type} (titleOf : α → String) (target : String)
    (items : List α) :
    ∀ it ∈ items, similarityRatio (titleOf it) target ≤
      (bestSimilar titleOf items target).2 := by
  have key : ∀ (l : List α) (acc : Option α × ℚ), ∀ it ∈ l,
      similarityRatio (titleOf it) target ≤
        (l.foldl (bestStep titleOf target) acc).2 := by
    intro l
    induction l with
    | nil => intro acc it h; cases h
    | cons x xs ih =>
      intro acc it h
      rcases List.mem_cons.mp h with rfl | hx
      · refine le_trans ?_ (foldl_bestStep_mono titleOf target xs _)
        unfold bestStep
        split
        · exact le_refl _
        · rename_i h2
          exact le_of_not_lt h2
      · exact ih (bestStep titleOf target acc x) it hx
  exact fun it h => key items (Option.none, 0) it h

theorem bestSimilar_cases {α : Type} (titleOf : α → String) (target : String)
    (items : List α) :
    bestSimilar titleOf items target = (Option.none, 0) ∨
      ∃ it ∈ items, bestSimilar titleOf items target =
        (some it, similarityRatio (titleOf it) target) := by
  have key : ∀ (l : List α) (acc : Option α × ℚ),
      l.foldl (bestStep titleOf target) acc = acc ∨
        ∃ it ∈ l, l.foldl (bestStep titleOf target) acc =
          (some it, similarityRatio (titleOf it) target) := by
    intro l
    induction l with
    | nil => intro acc; exact Or.inl rfl
    | cons x xs ih =>
      intro acc
      rcases ih (bestStep titleOf target acc x) with h | ⟨it, hmem, heq⟩
      · rw [List.foldl_cons, h]
        unfold bestStep
        split
        · exact Or.inr ⟨x, List.mem_cons_self _ _, rfl⟩
        · exact Or.inl rfl
      · exact Or.inr ⟨it, List.mem_cons_of_mem _ hmem, by rw [List.foldl_cons, heq]⟩
  exact key items (Option.none, 0)

end ReleaseDrop

namespace ReleaseDrop

/-! ### Lemmas: duplicate resolution by track count -/

theorem foldl_pickStep_eq (getTracks : String → List String) (cnt : Nat) :
    ∀ (l : List PlexAlbum) (b : PlexAlbum) (bd : Nat),
      l.foldl (pickStep getTracks cnt) (some (b, bd)) =
        some (pickLoop (albumDiff getTracks cnt) b bd l) := by
  intro l
  induction l with
  | nil => intro b bd; rfl
  | cons a rest ih =>
    intro b bd
    rw [List.foldl_cons]
    by_cases hd : albumDiff getTracks cnt a < bd
    · rw [show pickStep getTracks cnt (some (b, bd)) a =
          some (a, albumDiff getTracks cnt a) by simp [pickStep, hd]]
      rw [show pickLoop (albumDiff getTracks cnt) b bd (a :: rest) =
          pickLoop (albumDiff getTracks cnt) a (albumDiff getTracks cnt a) rest by
        simp [pickLoop, hd]]
      exact ih a _
    · rw [show pickStep getTracks cnt (some (b, bd)) a = some (b, bd) by
        simp [pickStep, hd]]
      rw [show pickLoop (albumDiff getTracks cnt) b bd (a :: rest) =
          pickLoop (albumDiff getTracks cnt) b bd rest by simp [pickLoop, hd]]
      exact ih b bd

theorem pickLoop_spec (diff : PlexAlbum → Nat) :
    ∀ (l : List PlexAlbum) (b : PlexAlbum),
      ∃ l1 c l2, b :: l = l1 ++ c :: l2 ∧
        pickLoop diff b (diff b) l = (c, diff c) ∧
        (∀ x ∈ l1, diff c < diff x) ∧
        (∀ x ∈ b :: l, diff c ≤ diff x) := by
  intro l
  induction l with
  | nil =>
    intro b
    refine ⟨[], b, [], rfl, rfl, ?_, ?_⟩
    · intro x hx; cases hx
    · intro x hx
      rcases List.mem_cons.mp hx with rfl | h
      · exact le_refl _
      · cases h
  | cons a rest ih =>
    intro b
    by_cases hd : diff a < diff b
    · obtain ⟨l1, c, l2, hsplit, hres, hstrict, hmin⟩ := ih a
      refine ⟨b :: l1, c, l2, ?_, ?_, ?_, ?_⟩
      · rw [List.cons_append, ← hsplit]
      · rw [show pickLoop diff b (diff b) (a :: rest) =
            pickLoop diff a (diff a) rest by simp [pickLoop, hd]]
        exact hres
      · intro x hx
        rcases List.mem_cons.mp hx with rfl | hx2
        · exact lt_of_le_of_lt (hmin a (List.mem_cons_self _ _)) hd
        · exact hstrict x hx2
      · intro x hx
        rcases List.mem_cons.mp hx with rfl | hx2
        · exact le_of_lt (lt_of_le_of_lt (hmin a (List.mem_cons_self _ _)) hd)
        · exact hmin x hx2
    · obtain ⟨l1, c, l2, hsplit, hres, hstrict, hmin⟩ := ih b
      cases l1 with
      | nil =>
        simp only [List.nil_append] at hsplit
        injection hsplit with h1 h2
        subst h1
        subst h2
        refine ⟨[], b, a :: rest, rfl, ?_, ?_, ?_⟩
        · rw [show pickLoop diff b (diff b) (a :: rest) =
              pickLoop diff b (diff b) rest by simp [pickLoop, hd]]
          exact hres
        · intro x hx; cases hx
        · intro x hx
          rcases List.mem_cons.mp hx with rfl | hx2
          · exact le_refl _
          rcases List.mem_cons.mp hx2 with rfl | hx3
          · exact le_of_not_lt hd
          · exact hmin x (List.mem_cons_of_mem _ hx3)
      | cons hd1 l1x =>
        simp only [List.cons_append] at hsplit
        injection hsplit with h1 h2
        subst h1
        have hcb : diff c < diff b := hstrict b (List.mem_cons_self _ _)
        refine ⟨b :: a :: l1x, c, l2, ?_, ?_, ?_, ?_⟩
        · rw [h2]
          simp [List.cons_append]
        · rw [show pickLoop diff b (diff b) (a :: rest) =
              pickLoop diff b (diff b) rest by simp [pickLoop, hd]]
          exact hres
        · intro x hx
          rcases List.mem_cons.mp hx with rfl | hx2
          · exact hcb
          rcases List.mem_cons.mp hx2 with rfl | hx3
          · exact lt_of_lt_of_le hcb (le_of_not_lt hd)
          · exact hstrict x (List.mem_cons_of_mem _ hx3)
        · intro x hx
          rcases List.mem_cons.mp hx with rfl | hx2
          · exact hmin x (List.mem_cons_self _ _)
          rcases List.mem_cons.mp hx2 with rfl | hx3
          · exact le_of_lt (lt_of_lt_of_le hcb (le_of_not_lt hd))
          · exact hmin x (List.mem_cons_of_mem _ hx3)

theorem pickBest_spec (getTracks : String → List String) (cnt : Nat)
    (e : PlexAlbum) (es : List PlexAlbum) :
    ∃ l1 c l2, e :: es = l1 ++ c :: l2 ∧
      pickBestByTrackCount getTracks (e :: es) cnt = some c ∧
      (∀ x ∈ l1, albumDiff getTracks cnt c < albumDiff getTracks cnt x) ∧
      (∀ x ∈ e :: es, albumDiff getTracks cnt c ≤ albumDiff getTracks cnt x) := by
  obtain ⟨l1, c, l2, hs, hr, hstrict, hmin⟩ :=
    pickLoop_spec (albumDiff getTracks cnt) es e
  refine ⟨l1, c, l2, hs, ?_, hstrict, hmin⟩
  unfold pickBestByTrackCount
  rw [List.foldl_cons]
  rw [show pickStep getTracks cnt Option.none e =
      some (e, albumDiff getTracks cnt e) from rfl]
  rw [foldl_pickStep_eq, hr]
  rfl

end ReleaseDrop

namespace ReleaseDrop

/-! ### Lemmas: result invariants -/

theorem resultOk_notFound (ts : List String) (c : ℚ) :
    ResultOk ts (notFoundResult ts c) := by
  refine ⟨?_, ?_, ?_, ?_⟩
  · intro x
    simp [notFoundResult]
  · intro x
    simp [notFoundResult]
  · intro _
    exact ⟨rfl, rfl, rfl⟩
  · intro h
    simp [notFoundResult] at h

theorem resultOk_success (ts names : List String) (isExact : Bool) (br : ℚ)
    (aid anm : Option String) :
    ResultOk ts
      { in_library := true
        match_type := if isExact then MatchType.exact else MatchType.similar
        match_confidence := if isExact then 1 else br
        available_tracks := (reconcileTracks names ts).1
        missing_tracks := (reconcileTracks names ts).2
        album_id := aid
        album_name := anm } := by
  refine ⟨?_, ?_, ?_, ?_⟩
  · intro x
    show x ∈ (reconcileTracks names ts).1 ∨ x ∈ (reconcileTracks names ts).2 ↔ x ∈ ts
    rw [mem_reconcile_fst, mem_reconcile_snd]
    constructor
    · rintro (⟨h, _⟩ | ⟨h, _⟩) <;> exact h
    · intro h
      cases hav : trackAvailable names x
      · exact Or.inr ⟨h, rfl⟩
      · exact Or.inl ⟨h, rfl⟩
  · intro x
    show ¬(x ∈ (reconcileTracks names ts).1 ∧ x ∈ (reconcileTracks names ts).2)
    rw [mem_reconcile_fst, mem_reconcile_snd]
    rintro ⟨⟨_, h1⟩, ⟨_, h2⟩⟩
    rw [h1] at h2
    cases h2
  · intro h
    cases isExact <;> simp at h
  · intro h
    cases isExact
    · simp at h
    · simp

theorem plexCheckLoop_ok (env : PlexEnv) (albumName artistName : String)
    (ts : List String) :
    ∀ libs, ResultOk ts (plexCheckLoop env albumName artistName ts libs) := by
  intro libs
  induction libs with
  | nil => exact resultOk_notFound ts 0
  | cons lib rest ih =>
    rcases h1 : searchArtistInLibrary env lib.key artistName with _ | a
    · simp only [plexCheckLoop, h1]
      exact ih
    · simp only [plexCheckLoop, h1]
      by_cases he : (getArtistAlbums env lib.key artistName).isEmpty
      · rw [if_pos he]
        exact ih
      · rw [if_neg he]
        rcases hm : (plexMatchAlbum (getAlbumTracks env)
            (getArtistAlbums env lib.key artistName) albumName ts.length).1
          with _ | matched
        · simp only [hm]
          exact ih
        · simp only [hm]
          exact resultOk_success ts _ _ _ _ _

theorem plexCheck_ok (env : PlexEnv) (albumName artistName : String)
    (ts : List String) :
    ResultOk ts (plexCheckAlbumInLibrary env albumName artistName ts) := by
  simp only [plexCheckAlbumInLibrary]
  split
  · exact resultOk_notFound ts 0
  · exact plexCheckLoop_ok env albumName artistName ts _

theorem jellyfinCheck_ok (env : JfEnv) (albumName artistName : String)
    (ts : List String) :
    ResultOk ts (jellyfinCheckAlbumInLibrary env albumName artistName ts) := by
  simp only [jellyfinCheckAlbumInLibrary]
  split
  · exact resultOk_notFound ts 0
  · split
    · exact resultOk_notFound ts _
    · exact resultOk_success ts _ _ _ _ _

end ReleaseDrop

namespace ReleaseDrop

/-! ### Lemmas: loop behavior -/

theorem plexCheckLoop_none (env : PlexEnv) (albumName artistName : String)
    (ts : List String) :
    ∀ libs, (plexCheckLoop env albumName artistName ts libs).match_type =
        MatchType.none →
      plexCheckLoop env albumName artistName ts libs = notFoundResult ts 0 := by
  intro libs
  induction libs with
  | nil => intro _; rfl
  | cons lib rest ih =>
    rcases h1 : searchArtistInLibrary env lib.key artistName with _ | a
    · simp only [plexCheckLoop, h1]
      exact ih
    · simp only [plexCheckLoop, h1]
      by_cases he : (getArtistAlbums env lib.key artistName).isEmpty
      · rw [if_pos he]
        exact ih
      · rw [if_neg he]
        rcases hm : (plexMatchAlbum (getAlbumTracks env)
            (getArtistAlbums env lib.key artistName) albumName ts.length).1
          with _ | matched
        · simp only [hm]
          exact ih
        · simp only [hm]
          intro hmt
          exfalso
          revert hmt
          cases (plexMatchAlbum (getAlbumTracks env)
              (getArtistAlbums env lib.key artistName) albumName ts.length).2.1 <;>
            simp

theorem plexCheck_empty (env : PlexEnv) (albumName artistName : String)
    (ts : List String) (h : getMusicLibraries env = []) :
    plexCheckAlbumInLibrary env albumName artistName ts = notFoundResult ts 0 := by
  simp [plexCheckAlbumInLibrary, h]

theorem getMusicLibraries_unconfigured (env : PlexEnv)
    (h : env.configured = false) : getMusicLibraries env = [] := by
  simp [getMusicLibraries, h]

theorem plexCheckLoop_artist_err (env : PlexEnv) (albumName artistName : String)
    (ts : List String) (lib : PlexSection) (rest : List PlexSection)
    (h : env.artists lib.key = Fetch.err) :
    plexCheckLoop env albumName artistName ts (lib :: rest) =
      plexCheckLoop env albumName artistName ts rest := by
  have hsa : searchArtistInLibrary env lib.key artistName = Option.none := by
    unfold searchArtistInLibrary
    rw [h]
    split <;> rfl
  simp only [plexCheckLoop, hsa]

theorem plexCheckLoop_albums_err (env : PlexEnv) (albumName artistName : String)
    (ts : List String) (lib : PlexSection) (rest : List PlexSection)
    (h : env.albums lib.key = Fetch.err) :
    plexCheckLoop env albumName artistName ts (lib :: rest) =
      plexCheckLoop env albumName artistName ts rest := by
  have hga : getArtistAlbums env lib.key artistName = [] := by
    unfold getArtistAlbums
    rw [h]
    split <;> rfl
  rcases h1 : searchArtistInLibrary env lib.key artistName with _ | a
  · simp only [plexCheckLoop, h1]
  · simp only [plexCheckLoop, h1, hga]
    rfl

theorem getAlbumTracks_err (env : PlexEnv) (k : String)
    (h : env.tracks k = Fetch.err) : getAlbumTracks env k = [] := by
  unfold getAlbumTracks
  rw [h]
  split <;> rfl

theorem plexCheck_tracks_err (env : PlexEnv) (albumName artistName : String)
    (ts : List String) (h : ∀ k, env.tracks k = Fetch.err) :
    (plexCheckAlbumInLibrary env albumName artistName ts).in_library = false ∨
    ((plexCheckAlbumInLibrary env albumName artistName ts).available_tracks = []
      ∧ (plexCheckAlbumInLibrary env albumName artistName ts).missing_tracks
          = ts) := by
  have key : ∀ libs, (plexCheckLoop env albumName artistName ts libs).in_library
        = false ∨
      ((plexCheckLoop env albumName artistName ts libs).available_tracks = []
        ∧ (plexCheckLoop env albumName artistName ts libs).missing_tracks
            = ts) := by
    intro libs
    induction libs with
    | nil => exact Or.inl rfl
    | cons lib rest ih =>
      rcases h1 : searchArtistInLibrary env lib.key artistName with _ | a
      · simp only [plexCheckLoop, h1]
        exact ih
      · simp only [plexCheckLoop, h1]
        by_cases he : (getArtistAlbums env lib.key artistName).isEmpty
        · rw [if_pos he]
          exact ih
        · rw [if_neg he]
          rcases hm : (plexMatchAlbum (getAlbumTracks env)
              (getArtistAlbums env lib.key artistName) albumName ts.length).1
            with _ | matched
          · simp only [hm]
            exact ih
          · simp only [hm]
            refine Or.inr ?_
            rw [getAlbumTracks_err env matched.key (h matched.key)]
            rw [show lowerNameSet [] = [] from rfl, reconcile_nil_names ts]
            exact ⟨rfl, rfl⟩
  simp only [plexCheckAlbumInLibrary]
  split
  · exact Or.inl rfl
  · exact key _

theorem find?_of_filter_singleton {α : Type} (p : α → Bool) (e : α) :
    ∀ l : List α, l.filter p = [e] → l.find? p = some e := by
  intro l
  induction l with
  | nil => intro h; simp at h
  | cons x xs ih =>
    intro h
    by_cases hp : p x
    · rw [List.filter_cons_of_pos hp] at h
      injection h with h1 h2
      rw [List.find?_cons_of_pos _ hp, h1]
    · rw [List.filter_cons_of_neg hp] at h
      rw [List.find?_cons_of_neg _ hp]
      exact ih h

end ReleaseDrop

namespace ReleaseDrop

/-! ### Lemmas: album matching -/

theorem plexMatchAlbum_no_exact (getTracks : String → List String)
    (albums : List PlexAlbum) (albumName : String) (cnt : Nat)
    (h : albums.filter (fun al => lowerStr al.title == lowerStr albumName) = []) :
    plexMatchAlbum getTracks albums albumName cnt =
      (if (bestSimilar (fun al : PlexAlbum => al.title) albums albumName).2
          ≥ mkRat 4 5
        then (bestSimilar (fun al : PlexAlbum => al.title) albums albumName).1
        else Option.none,
       false,
       (bestSimilar (fun al : PlexAlbum => al.title) albums albumName).2) := by
  by_cases hbr : (bestSimilar (fun al : PlexAlbum => al.title) albums
      albumName).2 ≥ mkRat 4 5 <;>
    simp [plexMatchAlbum, h, hbr]

theorem plexMatchAlbum_single (getTracks : String → List String)
    (albums : List PlexAlbum) (albumName : String) (cnt : Nat) (e : PlexAlbum)
    (h : albums.filter (fun al => lowerStr al.title == lowerStr albumName)
      = [e]) :
    plexMatchAlbum getTracks albums albumName cnt = (some e, true, 0) := by
  simp [plexMatchAlbum, h]

theorem plexMatchAlbum_multi (getTracks : String → List String)
    (albums : List PlexAlbum) (albumName : String) (cnt : Nat)
    (e1 e2 : PlexAlbum) (es : List PlexAlbum)
    (h : albums.filter (fun al => lowerStr al.title == lowerStr albumName)
      = e1 :: e2 :: es) :
    plexMatchAlbum getTracks albums albumName cnt =
      (pickBestByTrackCount getTracks (e1 :: e2 :: es) cnt, true, 0) := by
  simp [plexMatchAlbum, h]

theorem plexCheckLoop_found (env : PlexEnv) (albumName artistName : String)
    (ts : List String) (lib : PlexSection) (rest : List PlexSection)
    (a : String) (matched : PlexAlbum) (isExact : Bool) (q : ℚ)
    (ha : searchArtistInLibrary env lib.key artistName = some a)
    (hne : getArtistAlbums env lib.key artistName ≠ [])
    (hm : plexMatchAlbum (getAlbumTracks env)
        (getArtistAlbums env lib.key artistName) albumName ts.length
      = (some matched, isExact, q)) :
    plexCheckLoop env albumName artistName ts (lib :: rest) =
      { in_library := true
        match_type := if isExact then MatchType.exact else MatchType.similar
        match_confidence := if isExact then 1 else q
        available_tracks := (reconcileTracks
          (lowerNameSet (getAlbumTracks env matched.key)) ts).1
        missing_tracks := (reconcileTracks
          (lowerNameSet (getAlbumTracks env matched.key)) ts).2
        album_id := some matched.ratingKey
        album_name := some matched.title } := by
  simp only [plexCheckLoop, ha, hm]
  rw [if_neg (by simp [hne])]

/-! ### Lemmas: the Jellyfin matcher -/

theorem jellyfinCheck_exact (env : JfEnv) (albumName artistName : String)
    (ts : List String) (e : JfAlbum)
    (hfind : (jfGetArtistItems env).find?
        (fun al => lowerStr al.name == lowerStr albumName) = some e) :
    jellyfinCheckAlbumInLibrary env albumName artistName ts =
      { in_library := true
        match_type := MatchType.exact
        match_confidence := 1
        available_tracks := (reconcileTracks
          (lowerNameSet (jfGetAlbumTracks env e.id)) ts).1
        missing_tracks := (reconcileTracks
          (lowerNameSet (jfGetAlbumTracks env e.id)) ts).2
        album_id := some e.id
        album_name := some e.name } := by
  have hne : jfGetArtistItems env ≠ [] := by
    intro h0
    rw [h0] at hfind
    simp at hfind
  simp only [jellyfinCheckAlbumInLibrary, hfind]
  rw [if_neg (by simp [hne])]
  rfl

theorem jellyfinCheck_noExact (env : JfEnv) (albumName artistName : String)
    (ts : List String)
    (hne : jfGetArtistItems env ≠ [])
    (hfind : (jfGetArtistItems env).find?
        (fun al => lowerStr al.name == lowerStr albumName) = Option.none) :
    jellyfinCheckAlbumInLibrary env albumName artistName ts =
      (if (bestSimilar (fun al : JfAlbum => al.name) (jfGetArtistItems env)
          albumName).2 ≥ mkRat 17 20
       then
        match (bestSimilar (fun al : JfAlbum => al.name) (jfGetArtistItems env)
            albumName).1 with
        | Option.none => notFoundResult ts (bestSimilar
            (fun al : JfAlbum => al.name) (jfGetArtistItems env) albumName).2
        | some m =>
          { in_library := true
            match_type := MatchType.similar
            match_confidence := (bestSimilar (fun al : JfAlbum => al.name)
              (jfGetArtistItems env) albumName).2
            available_tracks := (reconcileTracks
              (lowerNameSet (jfGetAlbumTracks env m.id)) ts).1
            missing_tracks := (reconcileTracks
              (lowerNameSet (jfGetAlbumTracks env m.id)) ts).2
            album_id := some m.id
            album_name := some m.name }
       else notFoundResult ts (bestSimilar (fun al : JfAlbum => al.name)
          (jfGetArtistItems env) albumName).2) := by
  simp only [jellyfinCheckAlbumInLibrary, hfind]
  rw [if_neg (by simp [hne])]
  by_cases hbr : (bestSimilar (fun al : JfAlbum => al.name)
      (jfGetArtistItems env) albumName).2 ≥ mkRat 17 20
  · rw [if_pos hbr, if_pos hbr]
    rcases hb : (bestSimilar (fun al : JfAlbum => al.name)
        (jfGetArtistItems env) albumName).1 with _ | m
    · simp [hb]
    · simp [hb]
  · rw [if_neg hbr, if_neg hbr]

end ReleaseDrop

namespace ReleaseDrop

theorem trackAvailable_iff (libraryTitles : List String) (x : String) :
    trackAvailable (lowerNameSet libraryTitles) x = true ↔
      (lowerStr x ∈ libraryTitles.map lowerStr ∨
        ∃ t ∈ libraryTitles, mkRat 9 10 ≤ similarityRatio x t) := by
  unfold trackAvailable lowerNameSet
  rw [Bool.or_eq_true, List.any_eq_true]
  constructor
  · rintro (hc | ⟨pn, hpn, hsim⟩)
    · left
      have : lowerStr x ∈ (libraryTitles.map lowerStr).dedup := by
        simpa using hc
      exact List.mem_dedup.mp this
    · right
      obtain ⟨t, ht, rfl⟩ := List.mem_map.mp (List.mem_dedup.mp hpn)
      refine ⟨t, ht, ?_⟩
      rw [← similarityRatio_lowerStr_right x t]
      simpa using hsim
  · rintro (hc | ⟨t, ht, hsim⟩)
    · left
      simpa using List.mem_dedup.mpr hc
    · right
      refine ⟨lowerStr t, List.mem_dedup.mpr (List.mem_map_of_mem lowerStr ht), ?_⟩
      rw [similarityRatio_lowerStr_right x t]
      simpa using hsim

theorem filter_cons_ne_nil {α : Type} (p : α → Bool) {l : List α} {x : α}
    {xs : List α} (h : l.filter p = x :: xs) : l ≠ [] := by
  intro h0
  rw [h0] at h
  simp at h

end ReleaseDrop

namespace ReleaseDrop

/-! ### Claim theorems -/

/-- C7 (amended): `_similarity_ratio` always lies in `[0, 1]`, is
case-insensitive (unchanged under any recasing of either argument), and maps
equal strings to `1.0`.  The symmetry part of the original claim is false,
see the counterexample. -/
theorem c7_similarity_contract :
    (∀ a b : String, 0 ≤ similarityRatio a b ∧ similarityRatio a b ≤ 1)
    ∧ (∀ a a2 b b2 : String, lowerStr a2 = lowerStr a → lowerStr b2 = lowerStr b →
        similarityRatio a2 b2 = similarityRatio a b)
    ∧ (∀ x : String, similarityRatio x x = 1) :=
  ⟨fun a b => ⟨similarityRatio_nonneg a b, similarityRatio_le_one a b⟩,
   fun _ _ _ _ h1 h2 => similarityRatio_congr_lower h1 h2,
   similarityRatio_self⟩

/-- Witness for C7: the case-insensitivity part applied at a concrete
recasing. -/
theorem c7_witness :
    similarityRatio "AbCd" "aBcD" = similarityRatio "abcd" "abcd" :=
  c7_similarity_contract.2.1 "abcd" "AbCd" "abcd" "aBcD" (by decide) (by decide)

/-- Counterexample for C7: `SequenceMatcher.ratio` is not symmetric; on
`"ab"` versus `"bacb"` the two orders give `2/3` and `1/3`. -/
theorem c7_counterexample :
    similarityRatio "ab" "bacb" ≠ similarityRatio "bacb" "ab" := by decide

/-- C2: every result of `check_album_in_library` (both services) satisfies
the spec's `ReconciliationResult` invariants: available and missing names
partition the canonical names; `match_type = "none"` implies
`in_library = False`, no available tracks and all canonical tracks missing;
`match_type = "exact"` implies confidence `1.0`. -/
theorem c2_result_invariants (penv : PlexEnv) (jenv : JfEnv)
    (albumName artistName : String) (ts : List String) :
    ResultOk ts (plexCheckAlbumInLibrary penv albumName artistName ts)
    ∧ ResultOk ts (jellyfinCheckAlbumInLibrary jenv albumName artistName ts) :=
  ⟨plexCheck_ok penv albumName artistName ts,
   jellyfinCheck_ok jenv albumName artistName ts⟩

/-- Witness for C2 at a concrete release and two concrete servers. -/
theorem c2_witness :
    ResultOk ["Billie Jean", "Thriller"]
      (plexCheckAlbumInLibrary plexIntroEnv "Thriller" "Artist"
        ["Billie Jean", "Thriller"])
    ∧ ResultOk ["Billie Jean", "Thriller"]
      (jellyfinCheckAlbumInLibrary jfThrillerEnv "Thriller" "Artist"
        ["Billie Jean", "Thriller"]) :=
  c2_result_invariants plexIntroEnv jfThrillerEnv "Thriller" "Artist"
    ["Billie Jean", "Thriller"]

/-- C8: zero music libraries (in particular an unconfigured provider) gives
the not-found result with confidence `0.0`, empty available tracks and all
canonical names missing, without raising. -/
theorem c8_zero_libraries (env : PlexEnv) (albumName artistName : String)
    (ts : List String)
    (h : getMusicLibraries env = [] ∨ env.configured = false) :
    plexCheckAlbumInLibrary env albumName artistName ts = notFoundResult ts 0 := by
  rcases h with h | h
  · exact plexCheck_empty env albumName artistName ts h
  · exact plexCheck_empty env albumName artistName ts
      (getMusicLibraries_unconfigured env h)

/-- Witness for C8 on the unconfigured Plex fixture. -/
theorem c8_witness :
    plexCheckAlbumInLibrary plexUnconfEnv "Album" "Artist" ["T1", "T2"] =
      notFoundResult ["T1", "T2"] 0 :=
  c8_zero_libraries plexUnconfEnv "Album" "Artist" ["T1", "T2"]
    (Or.inr (by decide))

/-- C6: a canonical track is classified available exactly when its case-folded
name is among the case-folded library titles or some library title is
`>= 0.9`-similar to it; otherwise it is classified missing. -/
theorem c6_track_classification (libraryTitles canonical : List String)
    (x : String) (hx : x ∈ canonical) :
    (x ∈ (reconcileTracks (lowerNameSet libraryTitles) canonical).1 ↔
      (lowerStr x ∈ libraryTitles.map lowerStr ∨
        ∃ t ∈ libraryTitles, mkRat 9 10 ≤ similarityRatio x t))
    ∧ (x ∈ (reconcileTracks (lowerNameSet libraryTitles) canonical).2 ↔
      ¬(lowerStr x ∈ libraryTitles.map lowerStr ∨
        ∃ t ∈ libraryTitles, mkRat 9 10 ≤ similarityRatio x t)) := by
  have hiff := trackAvailable_iff libraryTitles x
  constructor
  · rw [mem_reconcile_fst, ← hiff]
    constructor
    · rintro ⟨_, h⟩
      exact h
    · intro h
      exact ⟨hx, h⟩
  · rw [mem_reconcile_snd]
    constructor
    · rintro ⟨_, h⟩ hc
      exact Bool.false_ne_true (h.symm.trans (hiff.mpr hc))
    · intro hc
      refine ⟨hx, ?_⟩
      cases hav : trackAvailable (lowerNameSet libraryTitles) x
      · rfl
      · exact absurd (hiff.mp hav) hc

/-- Witness for C6: a case-folded exact hit. -/
theorem c6_witness :
    "billie JEAN" ∈
        (reconcileTracks (lowerNameSet ["Billie Jean"]) ["billie JEAN"]).1 ↔
      (lowerStr "billie JEAN" ∈ ["Billie Jean"].map lowerStr ∨
        ∃ t ∈ ["Billie Jean"], mkRat 9 10 ≤ similarityRatio "billie JEAN" t) :=
  (c6_track_classification ["Billie Jean"] ["billie JEAN"] "billie JEAN"
    (by decide)).1

/-- C10 (amended): canonical tracks sharing a name are all classified the same
way — a name never lands in both collections — but they are not collapsed:
each collection holds one entry per canonical occurrence. -/
theorem c10_duplicate_names (names ts : List String) (x : String) :
    ¬(x ∈ (reconcileTracks names ts).1 ∧ x ∈ (reconcileTracks names ts).2)
    ∧ (reconcileTracks names ts).1.count x + (reconcileTracks names ts).2.count x
        = ts.count x := by
  constructor
  · rintro ⟨h1, h2⟩
    rw [mem_reconcile_fst] at h1
    rw [mem_reconcile_snd] at h2
    exact Bool.false_ne_true (h2.2.symm.trans h1.2)
  · exact count_reconcile names ts x

/-- Witness for C10 on a duplicated canonical name. -/
theorem c10_witness :
    ¬("Intro" ∈ (reconcileTracks (lowerNameSet ["Intro"]) ["Intro", "Intro"]).1
      ∧ "Intro" ∈ (reconcileTracks (lowerNameSet ["Intro"]) ["Intro", "Intro"]).2)
    ∧ (reconcileTracks (lowerNameSet ["Intro"]) ["Intro", "Intro"]).1.count "Intro"
      + (reconcileTracks (lowerNameSet ["Intro"]) ["Intro", "Intro"]).2.count "Intro"
        = ["Intro", "Intro"].count "Intro" :=
  c10_duplicate_names (lowerNameSet ["Intro"]) ["Intro", "Intro"] "Intro"

/-- Counterexample to C10 as stated: with canonical tracks
`["Intro", "Intro"]` the service reports the name twice in
`available_tracks`, not collapsed to a single entry. -/
theorem c10_counterexample :
    (plexCheckAlbumInLibrary plexIntroEnv "Album" "Artist"
        ["Intro", "Intro"]).available_tracks = ["Intro", "Intro"]
    ∧ ((plexCheckAlbumInLibrary plexIntroEnv "Album" "Artist"
        ["Intro", "Intro"]).available_tracks.count "Intro"
      + (plexCheckAlbumInLibrary plexIntroEnv "Album" "Artist"
        ["Intro", "Intro"]).missing_tracks.count "Intro") = 2 := by decide

end ReleaseDrop

namespace ReleaseDrop

theorem plexCheck_none (env : PlexEnv) (albumName artistName : String)
    (ts : List String)
    (h : (plexCheckAlbumInLibrary env albumName artistName ts).match_type =
      MatchType.none) :
    plexCheckAlbumInLibrary env albumName artistName ts = notFoundResult ts 0 := by
  by_cases he : (getMusicLibraries env).isEmpty
  · simp [plexCheckAlbumInLibrary, he]
  · simp only [plexCheckAlbumInLibrary] at h ⊢
    rw [if_neg he] at h ⊢
    exact plexCheckLoop_none env albumName artistName ts _ h

/-- C4: a single case-insensitive exact title match wins outright in both
services: the matcher returns that album with an exact match and confidence
`1.0`, with no similarity scoring involved. -/
theorem c4_unique_exact :
    (∀ (getTracks : String → List String) (albums : List PlexAlbum)
        (albumName : String) (cnt : Nat) (e : PlexAlbum),
      albums.filter (fun al => lowerStr al.title == lowerStr albumName) = [e] →
      plexMatchAlbum getTracks albums albumName cnt = (some e, true, 0))
    ∧ (∀ (env : PlexEnv) (albumName artistName : String) (ts : List String)
        (lib : PlexSection) (rest : List PlexSection) (a : String)
        (e : PlexAlbum),
      searchArtistInLibrary env lib.key artistName = some a →
      (getArtistAlbums env lib.key artistName).filter
        (fun al => lowerStr al.title == lowerStr albumName) = [e] →
      (plexCheckLoop env albumName artistName ts (lib :: rest)).match_type
          = MatchType.exact
        ∧ (plexCheckLoop env albumName artistName ts
            (lib :: rest)).match_confidence = 1
        ∧ (plexCheckLoop env albumName artistName ts (lib :: rest)).album_id
            = some e.ratingKey)
    ∧ (∀ (env : JfEnv) (albumName artistName : String) (ts : List String)
        (e : JfAlbum),
      (jfGetArtistItems env).filter
        (fun al => lowerStr al.name == lowerStr albumName) = [e] →
      (jellyfinCheckAlbumInLibrary env albumName artistName ts).match_type
          = MatchType.exact
        ∧ (jellyfinCheckAlbumInLibrary env albumName artistName
            ts).match_confidence = 1
        ∧ (jellyfinCheckAlbumInLibrary env albumName artistName ts).album_id
            = some e.id) := by
  refine ⟨?_, ?_, ?_⟩
  · intro getTracks albums albumName cnt e h
    exact plexMatchAlbum_single getTracks albums albumName cnt e h
  · intro env albumName artistName ts lib rest a e ha h
    have hne : getArtistAlbums env lib.key artistName ≠ [] :=
      filter_cons_ne_nil _ h
    have hm := plexMatchAlbum_single (getAlbumTracks env)
      (getArtistAlbums env lib.key artistName) albumName ts.length e h
    have hloop := plexCheckLoop_found env albumName artistName ts lib rest a e
      true 0 ha hne hm
    rw [hloop]
    exact ⟨rfl, rfl, rfl⟩
  · intro env albumName artistName ts e h
    have hf := find?_of_filter_singleton
      (fun al => lowerStr al.name == lowerStr albumName) e _ h
    rw [jellyfinCheck_exact env albumName artistName ts e hf]
    exact ⟨rfl, rfl, rfl⟩

/-- Witness for C4. -/
theorem c4_witness :
    (plexCheckLoop plexIntroEnv "Album" "Artist" ["T1"]
        [⟨"artist", "s1", "Music"⟩]).match_confidence = 1 :=
  (c4_unique_exact.2.1 plexIntroEnv "Album" "Artist" ["T1"]
    ⟨"artist", "s1", "Music"⟩ [] "Artist" ⟨"k1", "rk1", "Album", "Artist"⟩
    (by decide) (by decide)).2.1

/-- C5: with several exact-titled duplicates, Plex fetches each candidate's
tracks and keeps the first-encountered album minimizing the absolute
difference to the Spotify track count, and the result is an exact match with
confidence `1.0` regardless of which duplicate wins. -/
theorem c5_duplicate_resolution (env : PlexEnv) (albumName artistName : String)
    (ts : List String) (lib : PlexSection) (rest : List PlexSection)
    (a : String) (e1 e2 : PlexAlbum) (es : List PlexAlbum)
    (ha : searchArtistInLibrary env lib.key artistName = some a)
    (h : (getArtistAlbums env lib.key artistName).filter
      (fun al => lowerStr al.title == lowerStr albumName) = e1 :: e2 :: es) :
    ((plexCheckLoop env albumName artistName ts (lib :: rest)).match_type
        = MatchType.exact
      ∧ (plexCheckLoop env albumName artistName ts
          (lib :: rest)).match_confidence = 1)
    ∧ ∃ l1 c l2, e1 :: e2 :: es = l1 ++ c :: l2
        ∧ plexMatchAlbum (getAlbumTracks env)
            (getArtistAlbums env lib.key artistName) albumName ts.length
          = (some c, true, 0)
        ∧ (plexCheckLoop env albumName artistName ts (lib :: rest)).album_id
            = some c.ratingKey
        ∧ (∀ x ∈ e1 :: e2 :: es, albumDiff (getAlbumTracks env) ts.length c
            ≤ albumDiff (getAlbumTracks env) ts.length x)
        ∧ (∀ x ∈ l1, albumDiff (getAlbumTracks env) ts.length c
            < albumDiff (getAlbumTracks env) ts.length x) := by
  obtain ⟨l1, c, l2, hs, hp, hstrict, hmin⟩ :=
    pickBest_spec (getAlbumTracks env) ts.length e1 (e2 :: es)
  have hm : plexMatchAlbum (getAlbumTracks env)
      (getArtistAlbums env lib.key artistName) albumName ts.length
      = (some c, true, 0) := by
    rw [plexMatchAlbum_multi (getAlbumTracks env) _ albumName ts.length e1 e2
      es h, hp]
  have hne : getArtistAlbums env lib.key artistName ≠ [] :=
    filter_cons_ne_nil _ h
  have hloop := plexCheckLoop_found env albumName artistName ts lib rest a c
    true 0 ha hne hm
  constructor
  · rw [hloop]
    exact ⟨rfl, rfl⟩
  · exact ⟨l1, c, l2, hs, hm, by rw [hloop], hmin, hstrict⟩

/-- Witness for C5 on the two-duplicate fixture. -/
theorem c5_witness :
    (plexCheckLoop plexDupEnv "Dup" "Artist" ["T1"]
        [⟨"artist", "s1", "Music"⟩]).match_confidence = 1 :=
  (c5_duplicate_resolution plexDupEnv "Dup" "Artist" ["T1"]
    ⟨"artist", "s1", "Music"⟩ [] "Artist" ⟨"k1", "rk1", "Dup", "Artist"⟩
    ⟨"k2", "rk2", "Dup", "Artist"⟩ [] (by decide) (by decide)).1.2

example :
    (plexCheckAlbumInLibrary plexDupEnv "Dup" "Artist" ["T1"]).album_id
      = some "rk2" := by decide

end ReleaseDrop

namespace ReleaseDrop

/-- C9 (amended): an error fetching the artist or the artist's albums makes
that library yield no match and the loop continue; an error fetching tracks
is also caught (nothing propagates) but, when it happens after an album
matched, the service still reports the album as in the library with every
canonical track missing. -/
theorem c9_error_containment (env : PlexEnv) (albumName artistName : String)
    (ts : List String) (lib : PlexSection) (rest : List PlexSection) :
    (env.artists lib.key = Fetch.err →
      plexCheckLoop env albumName artistName ts (lib :: rest) =
        plexCheckLoop env albumName artistName ts rest)
    ∧ (env.albums lib.key = Fetch.err →
      plexCheckLoop env albumName artistName ts (lib :: rest) =
        plexCheckLoop env albumName artistName ts rest)
    ∧ ((∀ k, env.tracks k = Fetch.err) →
      (plexCheckAlbumInLibrary env albumName artistName ts).in_library = false
      ∨ ((plexCheckAlbumInLibrary env albumName artistName ts).available_tracks
            = []
        ∧ (plexCheckAlbumInLibrary env albumName artistName ts).missing_tracks
            = ts)) :=
  ⟨fun h => plexCheckLoop_artist_err env albumName artistName ts lib rest h,
   fun h => plexCheckLoop_albums_err env albumName artistName ts lib rest h,
   fun h => plexCheck_tracks_err env albumName artistName ts h⟩

/-- Witness for C9: an erroring artist query skips the library. -/
theorem c9_witness :
    plexCheckLoop plexArtistErrEnv "Album" "Artist" ["T1"]
        [⟨"artist", "s1", "Music"⟩] =
      plexCheckLoop plexArtistErrEnv "Album" "Artist" ["T1"] [] :=
  (c9_error_containment plexArtistErrEnv "Album" "Artist" ["T1"]
    ⟨"artist", "s1", "Music"⟩ []).1 (by decide)

/-- Counterexample to C9 as stated: when the track fetch of a matched album
errors, the library is NOT treated as yielding no match — the result still
reports the album in the library (exact, confidence 1) with every canonical
track missing. -/
theorem c9_counterexample :
    (plexCheckAlbumInLibrary plexTrackErrEnv "Album" "Artist"
        ["T1", "T2"]).in_library = true
    ∧ (plexCheckAlbumInLibrary plexTrackErrEnv "Album" "Artist"
        ["T1", "T2"]).match_type = MatchType.exact
    ∧ (plexCheckAlbumInLibrary plexTrackErrEnv "Album" "Artist"
        ["T1", "T2"]).missing_tracks = ["T1", "T2"]
    ∧ plexTrackErrEnv.tracks "k1" = Fetch.err := by decide

/-- C3 (amended): when no match is found, Plex always reports confidence
`0.0` in its final not-found result (the per-library best ratios are not
carried out of the loop); Jellyfin, whose reconciliation examines a single
artist item list, does carry the maximum similarity ratio into its not-found
result. -/
theorem c3_miss_confidence (penv : PlexEnv) (jenv : JfEnv)
    (albumName artistName : String) (ts : List String) :
    ((plexCheckAlbumInLibrary penv albumName artistName ts).match_type =
        MatchType.none →
      (plexCheckAlbumInLibrary penv albumName artistName ts).match_confidence
        = 0)
    ∧ (jfGetArtistItems jenv ≠ [] →
      (jellyfinCheckAlbumInLibrary jenv albumName artistName ts).match_type =
        MatchType.none →
      (jellyfinCheckAlbumInLibrary jenv albumName artistName
          ts).match_confidence =
        (bestSimilar (fun al : JfAlbum => al.name) (jfGetArtistItems jenv)
          albumName).2
      ∧ (∀ al ∈ jfGetArtistItems jenv,
          similarityRatio al.name albumName ≤
            (bestSimilar (fun al : JfAlbum => al.name) (jfGetArtistItems jenv)
              albumName).2)) := by
  constructor
  · intro h
    rw [plexCheck_none penv albumName artistName ts h]
    rfl
  · intro hne hnone
    rcases hf : (jfGetArtistItems jenv).find?
        (fun al => lowerStr al.name == lowerStr albumName) with _ | e
    · have heq := jellyfinCheck_noExact jenv albumName artistName ts hne hf
      refine ⟨?_, fun al hal => le_bestSimilar _ _ _ al hal⟩
      rw [heq] at hnone ⊢
      by_cases hbr : (bestSimilar (fun al : JfAlbum => al.name)
          (jfGetArtistItems jenv) albumName).2 ≥ mkRat 17 20
      · rw [if_pos hbr] at hnone ⊢
        rcases hb : (bestSimilar (fun al : JfAlbum => al.name)
            (jfGetArtistItems jenv) albumName).1 with _ | m
        · rfl
        · rfl
      · rw [if_neg hbr] at hnone ⊢
        rfl
    · have heq := jellyfinCheck_exact jenv albumName artistName ts e hf
      rw [heq] at hnone
      exact MatchType.noConfusion hnone

/-- Witness for C3 on the Jellyfin near-miss fixture. -/
theorem c3_witness :
    (jellyfinCheckAlbumInLibrary jfMissEnv "abcd" "Artist"
        ["T1"]).match_confidence =
      (bestSimilar (fun al : JfAlbum => al.name) (jfGetArtistItems jfMissEnv)
        "abcd").2 :=
  ((c3_miss_confidence plexUnconfEnv jfMissEnv "abcd" "Artist" ["T1"]).2
    (by decide) (by decide)).1

/-- Counterexample to C3 as stated: a Plex library with the artist and a
`0.25`-similar album is examined, yet the final not-found confidence is
`0.0`, not the best ratio `1/4`. -/
theorem c3_counterexample :
    plexCheckAlbumInLibrary plexFarEnv "abcd" "Artist" ["T1"] =
        notFoundResult ["T1"] 0
    ∧ similarityRatio "axyz" "abcd" = mkRat 1 4
    ∧ (notFoundResult ["T1"] (0 : ℚ)).match_confidence ≠ mkRat 1 4 := by decide

end ReleaseDrop

namespace ReleaseDrop

/-- C1 (amended): with no case-insensitive exact title match, both services
select a maximum-similarity candidate, but with different thresholds and
miss behavior.  Jellyfin (threshold `0.85`): at or above it, the result is a
similar match with confidence equal to that maximum ratio; below it, the
not-found result carries the ratio.  Plex (threshold `0.80`): at or above it
the matcher returns the best candidate as a (non-exact) similar match with
the ratio, below it the library yields no match at all (and the loop's final
not-found result reports `0.0`, see C3). -/
theorem c1_similarity_fallback :
    (∀ (env : JfEnv) (albumName artistName : String) (ts : List String),
      jfGetArtistItems env ≠ [] →
      (jfGetArtistItems env).find?
        (fun al => lowerStr al.name == lowerStr albumName) = Option.none →
      (∀ al ∈ jfGetArtistItems env,
        similarityRatio al.name albumName ≤
          (bestSimilar (fun al : JfAlbum => al.name) (jfGetArtistItems env)
            albumName).2)
      ∧ ((bestSimilar (fun al : JfAlbum => al.name) (jfGetArtistItems env)
            albumName).2 ≥ mkRat 17 20 →
          ∃ it ∈ jfGetArtistItems env,
            bestSimilar (fun al : JfAlbum => al.name) (jfGetArtistItems env)
                albumName
              = (some it, similarityRatio it.name albumName)
            ∧ (jellyfinCheckAlbumInLibrary env albumName artistName
                ts).match_type = MatchType.similar
            ∧ (jellyfinCheckAlbumInLibrary env albumName artistName
                ts).match_confidence = similarityRatio it.name albumName
            ∧ (jellyfinCheckAlbumInLibrary env albumName artistName
                ts).album_id = some it.id)
      ∧ (¬((bestSimilar (fun al : JfAlbum => al.name) (jfGetArtistItems env)
            albumName).2 ≥ mkRat 17 20) →
          jellyfinCheckAlbumInLibrary env albumName artistName ts =
            notFoundResult ts (bestSimilar (fun al : JfAlbum => al.name)
              (jfGetArtistItems env) albumName).2))
    ∧ (∀ (getTracks : String → List String) (albums : List PlexAlbum)
        (albumName : String) (cnt : Nat),
      albums.filter (fun al => lowerStr al.title == lowerStr albumName) = [] →
      (∀ al ∈ albums,
        similarityRatio al.title albumName ≤
          (bestSimilar (fun al : PlexAlbum => al.title) albums albumName).2)
      ∧ plexMatchAlbum getTracks albums albumName cnt =
          (if (bestSimilar (fun al : PlexAlbum => al.title) albums
              albumName).2 ≥ mkRat 4 5
            then (bestSimilar (fun al : PlexAlbum => al.title) albums
              albumName).1
            else Option.none,
           false,
           (bestSimilar (fun al : PlexAlbum => al.title) albums albumName).2)) := by
  constructor
  · intro env albumName artistName ts hne hf
    refine ⟨fun al hal => le_bestSimilar _ _ _ al hal, ?_, ?_⟩
    · intro hbr
      rcases bestSimilar_cases (fun al : JfAlbum => al.name) albumName
          (jfGetArtistItems env) with hc | ⟨it, hmem, heq2⟩
      · rw [hc] at hbr
        exact absurd hbr (by decide)
      · refine ⟨it, hmem, heq2, ?_⟩
        have heq := jellyfinCheck_noExact env albumName artistName ts hne hf
        rw [heq, if_pos hbr, heq2]
        exact ⟨rfl, rfl, rfl⟩
    · intro hbr
      rw [jellyfinCheck_noExact env albumName artistName ts hne hf, if_neg hbr]
  · intro getTracks albums albumName cnt hfil
    exact ⟨fun al hal => le_bestSimilar _ _ _ al hal,
      plexMatchAlbum_no_exact getTracks albums albumName cnt hfil⟩

/-- Witness for C1 on the Jellyfin below-threshold fixture. -/
theorem c1_witness :
    jellyfinCheckAlbumInLibrary jfMissEnv "abcd" "Artist" ["T1"] =
      notFoundResult ["T1"] (bestSimilar (fun al : JfAlbum => al.name)
        (jfGetArtistItems jfMissEnv) "abcd").2 :=
  (c1_similarity_fallback.1 jfMissEnv "abcd" "Artist" ["T1"] (by decide)
    (by decide)).2.2 (by decide)

/-- Counterexample to C1 as stated: an album-title ratio of exactly `0.8`,
below the claimed `0.85` threshold, still produces a similar match in the
Plex service (its threshold is `0.80`), not a `none` result. -/
theorem c1_counterexample :
    (plexCheckAlbumInLibrary plexSimilarEnv "abcd" "Artist"
        ["T1"]).match_type = MatchType.similar
    ∧ (plexCheckAlbumInLibrary plexSimilarEnv "abcd" "Artist"
        ["T1"]).match_confidence = mkRat 4 5
    ∧ mkRat 4 5 < mkRat 17 20 := by decide

end ReleaseDrop
